import Mathlib

/-!
Verification of the beacon entry production/validation core
(`ValidateBlockValues`, `BeaconEntriesForBlock`, `reverse` and the
`RandomBeacon` capability) of the `beacon` package.

Machine integers: beacon rounds are Go `uint64`; they are embedded as `Nat`
with explicit wraparound (`% 2 ^ 64`) at the two places the source performs
subtraction (`round - 1`, `maxRound - 1`).  Chain epochs (`abi.ChainEpoch`,
an `int64`) are embedded as `Int`.  Byte slices are embedded as `List Nat`.
Fallible operations return `Except BErr` / `Option String`.
-/

/-- Modulus of Go's `uint64` arithmetic. -/
def uint64Mod : Nat := 2 ^ 64

/-- Go `uint64` decrement `x - 1`: wraps to `2 ^ 64 - 1` when `x = 0`.
For `x < 2 ^ 64` this equals `if x = 0 then 2 ^ 64 - 1 else x - 1`. -/
def usub1 (x : Nat) : Nat := (x + (uint64Mod - 1)) % uint64Mod

/-- `types.BeaconEntry`: a round number (`uint64`) and the randomness payload
(`Data []byte`). -/
structure BeaconEntry where
  Round : Nat
  Data : List Nat
deriving DecidableEq, Repr, Inhabited

/-- `Response`: the value delivered on the single-shot channel returned by
`RandomBeacon.Entry`; carries the entry and an optional error. -/
structure Response where
  Entry : BeaconEntry
  Err : Option String
deriving Repr, Inhabited

/-- The `RandomBeacon` interface.  `Entry` is embedded as a deterministic
function from the requested round to the `Response` eventually delivered on
the channel (the `context.Context` argument is modelled separately by `Ctx`,
which decides the `select` race in the producer's fetch loop).
`VerifyEntry` returns `none` on success and `some msg` on failure.
`id` models Go interface-value identity: the source compares beacons with
`parentBeacon != currBeacon`, which distinguishes beacon instances; two
schedule points hold the same beacon exactly when their `id`s agree. -/
structure RandomBeacon where
  id : Nat
  Entry : Nat → Response
  VerifyEntry : BeaconEntry → List Nat → Option String
  MaxBeaconRoundForEpoch : Nat → Int → Nat
  IsChained : Bool

/-- `BeaconPoint`: one schedule entry, a start epoch and its beacon. -/
structure BeaconPoint where
  Start : Int
  Beacon : RandomBeacon

/-- `Schedule`: the ordered beacon schedule. -/
abbrev Schedule := List BeaconPoint

/-- Modelled from the spec: `Schedule.BeaconForEpoch` is called by both
algorithms but its body is not part of this source file.  Per the spec, the
schedule is ordered by start epoch descending and the lookup returns the
beacon whose `startEpoch` is the largest value `≤ epoch`; the spec declares
the lookup undefined/fatal when no point qualifies, which is embedded as
`none`. -/
def BeaconForEpoch (bSchedule : Schedule) (epoch : Int) : Option RandomBeacon :=
  (bSchedule.find? fun p => p.Start ≤ epoch).map fun p => p.Beacon

/-- The block-header fields consumed by `ValidateBlockValues`. -/
structure BlockHeader where
  Height : Int
  BeaconEntries : List BeaconEntry

/-- Model of `context.Context` for the producer's fetch loop: `doneAt e`
decides the `select` race while awaiting the entry for epoch `e` (`true`
means `ctx.Done()` wins), and `errMsg` models `ctx.Err()`. -/
structure Ctx where
  doneAt : Int → Bool
  errMsg : String

/-- The errors returned by the two algorithms; one constructor per
`fmt.Errorf` site, carrying exactly that site's format arguments. -/
inductive BErr where
  /-- "expected two beacon entries at beacon fork, got %d" -/
  | forkCount (got : Nat)
  /-- "beacon at fork point invalid: (%v, %v): %w" -/
  | forkInvalid (e1 e0 : BeaconEntry) (w : String)
  /-- "expected not to have any beacon entries in this block, got %d" -/
  | noopNonEmpty (got : Nat)
  /-- "expected to have beacon entries in this block, but didn't find any" -/
  | noEntries
  /-- "expected final beacon entry in block to be at round %d, got %d" -/
  | lastRound (expected got : Nat)
  /-- "unexpected beacon round %d, expected %d for epoch %d" -/
  | wrongRound (got expected : Nat) (epoch : Int)
  /-- "beacon entry %d (%d - %x (%d)) was invalid: %w" -/
  | entryInvalid (i : Nat) (round : Nat) (data : List Nat) (dataLen : Nat) (w : String)
  /-- "getting entry %d returned error: %w" -/
  | gettingEntry (round : Nat) (w : String)
  /-- "beacon entry request returned error: %w" -/
  | entryRequest (w : String)
  /-- "context timed out waiting on beacon entry to come back for epoch %d: %w" -/
  | ctxTimeout (epoch : Int) (w : String)
  /-- The spec-modelled `BeaconForEpoch` found no qualifying point (the spec
  calls this undefined/fatal). -/
  | scheduleMisconfigured
deriving DecidableEq, Repr

instance {e a : Type} [DecidableEq e] [DecidableEq a] : DecidableEq (Except e a) :=
  fun x y =>
    match x, y with
    | Except.error e1, Except.error e2 =>
      match decEq e1 e2 with
      | isTrue h => isTrue (by rw [h])
      | isFalse h => isFalse (by intro hc; cases hc; exact h rfl)
    | Except.ok a1, Except.ok a2 =>
      match decEq a1 a2 with
      | isTrue h => isTrue (by rw [h])
      | isFalse h => isFalse (by intro hc; cases hc; exact h rfl)
    | Except.error _, Except.ok _ => isFalse (by intro hc; cases hc)
    | Except.ok _, Except.error _ => isFalse (by intro hc; cases hc)

/-- The round-contiguity loop of `ValidateBlockValues` (the `for i, e :=
range h.BeaconEntries` loop run only for unchained beacons), with `i`
carried explicitly. -/
def checkRoundsFrom (cb : RandomBeacon) (nv : Nat) (parentEpoch : Int) :
    Nat → List BeaconEntry → Option BErr
  | _, [] => none
  | i, e :: rest =>
    let correctRound := cb.MaxBeaconRoundForEpoch nv (parentEpoch + (i : Int) + 1)
    if e.Round != correctRound then
      some (BErr.wrongRound e.Round correctRound (parentEpoch + (i : Int)))
    else
      checkRoundsFrom cb nv parentEpoch (i + 1) rest

/-- The sequential verification loop of `ValidateBlockValues`: each entry is
checked against the previous entry's data, starting from `prevEntry` and
advancing after each success. -/
def verifyEntriesFrom (cb : RandomBeacon) :
    Nat → BeaconEntry → List BeaconEntry → Option BErr
  | _, _, [] => none
  | i, prevEntry, e :: rest =>
    match cb.VerifyEntry e prevEntry.Data with
    | some w => some (BErr.entryInvalid i e.Round e.Data e.Data.length w)
    | none => verifyEntriesFrom cb (i + 1) e rest

/-- `ValidateBlockValues` (beacon package): decides whether the beacon
entries carried by block header `h` are valid given the parent epoch and the
last verified entry `prevEntry`. -/
def ValidateBlockValues (bSchedule : Schedule) (nv : Nat) (h : BlockHeader)
    (parentEpoch : Int) (prevEntry : BeaconEntry) : Except BErr Unit :=
  match BeaconForEpoch bSchedule parentEpoch, BeaconForEpoch bSchedule h.Height with
  | some parentBeacon, some currBeacon =>
    if parentBeacon.id != currBeacon.id && currBeacon.IsChained then
      if h.BeaconEntries.length != 2 then
        Except.error (BErr.forkCount h.BeaconEntries.length)
      else
        let e0 := h.BeaconEntries.getD 0 default
        let e1 := h.BeaconEntries.getD 1 default
        match currBeacon.VerifyEntry e1 e0.Data with
        | some w => Except.error (BErr.forkInvalid e1 e0 w)
        | none => Except.ok ()
    else
      let maxRound := currBeacon.MaxBeaconRoundForEpoch nv h.Height
      if maxRound == prevEntry.Round then
        if h.BeaconEntries.length != 0 then
          Except.error (BErr.noopNonEmpty h.BeaconEntries.length)
        else
          Except.ok ()
      else if h.BeaconEntries.length == 0 then
        Except.error BErr.noEntries
      else if currBeacon.IsChained && prevEntry.Round == 0 then
        Except.ok ()
      else
        let last := h.BeaconEntries.getD (h.BeaconEntries.length - 1) default
        if last.Round != maxRound then
          Except.error (BErr.lastRound maxRound last.Round)
        else
          let roundsErr :=
            if !currBeacon.IsChained then
              checkRoundsFrom currBeacon nv parentEpoch 0 h.BeaconEntries
            else
              none
          match roundsErr with
          | some e => Except.error e
          | none =>
            match verifyEntriesFrom currBeacon 0 prevEntry h.BeaconEntries with
            | some e => Except.error e
            | none => Except.ok ()
  | _, _ => Except.error BErr.scheduleMisconfigured

/-- The fork branch of `BeaconEntriesForBlock`, parameterised by the two
requested rounds (the source requests `round-1` then `round`, awaiting each
without cancellation support). -/
def forkFetch (cb : RandomBeacon) (r0 r1 : Nat) : Except BErr (List BeaconEntry) :=
  let res0 := cb.Entry r0
  match res0.Err with
  | some w => Except.error (BErr.gettingEntry r0 w)
  | none =>
    let res1 := cb.Entry r1
    match res1.Err with
    | some w => Except.error (BErr.gettingEntry r1 w)
    | none => Except.ok [res0.Entry, res1.Entry]

/-- The non-fork fetch loop of `BeaconEntriesForBlock`:
`for currEpoch := epoch; currEpoch > parentEpoch; currEpoch--`.
The loop runs exactly `(epoch - parentEpoch).toNat` iterations, passed here
as structural fuel; `epoch` is the loop-invariant target epoch that the
timeout error reports.  Each iteration awaits the entry for
`MaxBeaconRoundForEpoch nv currEpoch`, racing it against cancellation
(`ctx.doneAt currEpoch` decides the `select`), and appends the entry. -/
def fetchLoop (cb : RandomBeacon) (ctx : Ctx) (nv : Nat) (epoch : Int) :
    Nat → Int → List BeaconEntry → Except BErr (List BeaconEntry)
  | 0, _, out => Except.ok out
  | fuel + 1, currEpoch, out =>
    let currRound := cb.MaxBeaconRoundForEpoch nv currEpoch
    let resp := cb.Entry currRound
    if ctx.doneAt currEpoch then
      Except.error (BErr.ctxTimeout epoch ctx.errMsg)
    else
      match resp.Err with
      | some w => Except.error (BErr.entryRequest w)
      | none => fetchLoop cb ctx nv epoch fuel (currEpoch - 1) (out ++ [resp.Entry])

/-- `reverse` (beacon package): the in-place slice reversal
`for i := 0; i < len(arr)/2; i++ { arr[i], arr[len(arr)-(1+i)] = ... }`,
embedded as a fold of swaps over the same index range. -/
def reverse (arr : Array BeaconEntry) : Array BeaconEntry :=
  (List.range (arr.size / 2)).foldl (fun a i => a.swap! i (arr.size - (1 + i))) arr

/-- `BeaconEntriesForBlock` (beacon package): assembles the beacon entries a
new block at `epoch` should carry.  The `List`/`Array` conversions around
`reverse` embed the in-place reversal of the accumulator slice. -/
def BeaconEntriesForBlock (ctx : Ctx) (bSchedule : Schedule) (nv : Nat)
    (epoch parentEpoch : Int) (prev : BeaconEntry) : Except BErr (List BeaconEntry) :=
  match BeaconForEpoch bSchedule parentEpoch, BeaconForEpoch bSchedule epoch with
  | some parentBeacon, some currBeacon =>
    if parentBeacon.id != currBeacon.id && currBeacon.IsChained then
      let round := currBeacon.MaxBeaconRoundForEpoch nv epoch
      forkFetch currBeacon (usub1 round) round
    else
      let maxRound := currBeacon.MaxBeaconRoundForEpoch nv epoch
      if maxRound == prev.Round then
        Except.ok []
      else
        let _prev := if prev.Round == 0 then { prev with Round := usub1 maxRound } else prev
        match fetchLoop currBeacon ctx nv epoch ((epoch - parentEpoch).toNat) epoch [] with
        | Except.error e => Except.error e
        | Except.ok out => Except.ok ((reverse out.toArray).toList)
  | _, _ => Except.error BErr.scheduleMisconfigured

/-- The data each entry is verified against in the sequential verification
loop: `prevEntry`'s data for the first entry, the previous entry's data
afterwards. -/
def chainData (prev : BeaconEntry) (l : List BeaconEntry) (i : Nat) : List Nat :=
  if i = 0 then prev.Data else (l.getD (i - 1) default).Data

/-- One invariant for the swap fold underlying `reverse`: after the first `m`
swaps the prefix of length `m` and the suffix of length `m` are exchanged and
the middle untouched. -/
theorem revFold_spec (arr : Array BeaconEntry) (m : Nat) (hm : m ≤ arr.size / 2) :
    ((List.range m).foldl (fun a i => a.swap! i (arr.size - (1 + i))) arr).size = arr.size ∧
    ∀ k, k < arr.size →
      ((List.range m).foldl (fun a i => a.swap! i (arr.size - (1 + i))) arr)[k]? =
        if k < m ∨ arr.size - m ≤ k then arr[arr.size - 1 - k]? else arr[k]? := by
  induction m with
  | zero =>
    refine ⟨rfl, fun k hk => ?_⟩
    rw [if_neg (by omega), List.range_zero, List.foldl_nil]
  | succ m ih =>
    obtain ⟨hsz, hinv⟩ := ih (by omega)
    rw [List.range_succ, List.foldl_append, List.foldl_cons, List.foldl_nil]
    set A := (List.range m).foldl (fun a i => a.swap! i (arr.size - (1 + i))) arr with hA
    have hm2 : m < A.size := by rw [hsz]; omega
    have hj2 : arr.size - (1 + m) < A.size := by rw [hsz]; omega
    have hswap : A.swap! m (arr.size - (1 + m)) = A.swap ⟨m, hm2⟩ ⟨arr.size - (1 + m), hj2⟩ := by
      unfold Array.swap!
      rw [dif_pos hm2, dif_pos hj2]
    rw [hswap]
    refine ⟨by rw [Array.size_swap, hsz], fun k hk => ?_⟩
    rw [Array.getElem?_swap]
    by_cases hkj : arr.size - (1 + m) = k
    · rw [if_pos (by exact_mod_cast hkj)]
      have : some A[m] = A[m]? := (Array.getElem?_eq_getElem hm2).symm
      rw [this, hinv m (by omega)]
      rw [if_neg (by omega), if_pos (by omega)]
      congr 1
      omega
    · rw [if_neg (by simpa using hkj)]
      by_cases hkm : m = k
      · rw [if_pos (by exact_mod_cast hkm)]
        have : some A[arr.size - (1 + m)] = A[arr.size - (1 + m)]? :=
          (Array.getElem?_eq_getElem hj2).symm
        rw [this, hinv _ (by omega)]
        rw [if_neg (by omega), if_pos (by omega)]
        congr 1
        omega
      · rw [if_neg (by simpa using hkm), hinv k hk]
        by_cases hcond : k < m ∨ arr.size - m ≤ k
        · rw [if_pos hcond, if_pos (by omega)]
        · rw [if_neg hcond, if_neg (by omega)]

/-- The swap-loop `reverse` computes list reversal. -/
theorem reverse_toList (arr : Array BeaconEntry) :
    (reverse arr).toList = arr.toList.reverse := by
  obtain ⟨hsz, hinv⟩ := revFold_spec arr (arr.size / 2) le_rfl
  apply List.ext_getElem?
  intro k
  by_cases hk : k < arr.size
  · have h1 : (reverse arr).toList[k]? = (reverse arr)[k]? := by
      rw [Array.getElem?_eq_getElem?_toList]
    have h2 : arr.toList.reverse[k]? = arr.toList[arr.toList.length - 1 - k]? := by
      rw [List.getElem?_reverse (by simpa using hk)]
    rw [h1, h2, reverse, hinv k hk]
    have h3 : arr.toList[arr.toList.length - 1 - k]? = arr[arr.size - 1 - k]? := by
      rw [Array.getElem?_eq_getElem?_toList]
    rw [h3]
    by_cases hcond : k < arr.size / 2 ∨ arr.size - arr.size / 2 ≤ k
    · rw [if_pos hcond]
    · rw [if_neg hcond]
      have : k = arr.size - 1 - k := by omega
      rw [← this]
  · have h1 : (reverse arr).toList[k]? = none := by
      rw [List.getElem?_eq_none_iff]
      have : (reverse arr).toList.length = (reverse arr).size := by simp
      rw [this, reverse, hsz]
      omega
    have h2 : (arr.toList.reverse)[k]? = none := by
      rw [List.getElem?_eq_none_iff]
      simp
      omega
    rw [h1, h2]

theorem reverse_toArray_toList (l : List BeaconEntry) :
    (reverse l.toArray).toList = l.reverse := by
  rw [reverse_toList, Array.toList_toArray]

/-- Inversion for the fetch loop: a successful run starting at `c` with `n`
iterations appends, in descending epoch order, the entry delivered for each
epoch `c, c-1, …, c-(n-1)`. -/
theorem fetchLoop_ok (cb : RandomBeacon) (ctx : Ctx) (nv : Nat) (epoch : Int) :
    ∀ (n : Nat) (c : Int) (acc out : List BeaconEntry),
      fetchLoop cb ctx nv epoch n c acc = Except.ok out →
      out = acc ++ (List.range n).map
        (fun k : Nat => (cb.Entry (cb.MaxBeaconRoundForEpoch nv (c - (k : Int)))).Entry) := by
  intro n
  induction n with
  | zero =>
    intro c acc out hrun
    simp only [fetchLoop] at hrun
    cases hrun
    simp
  | succ n ih =>
    intro c acc out hrun
    simp only [fetchLoop] at hrun
    by_cases hdone : ctx.doneAt c
    · rw [if_pos hdone] at hrun
      exact absurd hrun (by simp)
    · rw [if_neg hdone] at hrun
      revert hrun
      cases herr : (cb.Entry (cb.MaxBeaconRoundForEpoch nv c)).Err with
      | some w => intro hrun; exact absurd hrun (by simp)
      | none =>
        intro hrun
        have := ih (c - 1) (acc ++ [(cb.Entry (cb.MaxBeaconRoundForEpoch nv c)).Entry]) out hrun
        rw [this, List.range_succ_eq_map, List.map_cons, List.map_map]
        simp only [List.append_assoc, List.singleton_append, Int.sub_zero]
        congr 1
        norm_num
        intro a _
        congr 3
        omega

/-- Success of the round-contiguity loop given per-position round agreement. -/
theorem checkRoundsFrom_eq_none (cb : RandomBeacon) (nv : Nat) (parentEpoch : Int) :
    ∀ (l : List BeaconEntry) (j : Nat),
      (∀ i (hi : i < l.length),
        (l.get ⟨i, hi⟩).Round = cb.MaxBeaconRoundForEpoch nv (parentEpoch + (j + i : Nat) + 1)) →
      checkRoundsFrom cb nv parentEpoch j l = none := by
  intro l
  induction l with
  | nil => intro j _; rfl
  | cons e rest ih =>
    intro j hpos
    have h0 := hpos 0 (by simp)
    simp only [List.get] at h0
    rw [checkRoundsFrom]
    rw [if_neg (by simp only [bne_iff_ne, ne_eq, not_not]; rw [h0]; norm_num)]
    apply ih
    intro i hi
    have := hpos (i + 1) (by simpa using Nat.succ_lt_succ hi)
    simp only [List.get] at this
    rw [this]
    congr 2
    push_cast
    ring

/-- Conversely, if the round-contiguity loop succeeds every position agrees. -/
theorem checkRoundsFrom_none_imp (cb : RandomBeacon) (nv : Nat) (parentEpoch : Int) :
    ∀ (l : List BeaconEntry) (j : Nat),
      checkRoundsFrom cb nv parentEpoch j l = none →
      ∀ i (hi : i < l.length),
        (l.get ⟨i, hi⟩).Round = cb.MaxBeaconRoundForEpoch nv (parentEpoch + (j + i : Nat) + 1) := by
  intro l
  induction l with
  | nil => intro j _ i hi; simp at hi
  | cons e rest ih =>
    intro j hnone i hi
    rw [checkRoundsFrom] at hnone
    by_cases hhd : (e.Round != cb.MaxBeaconRoundForEpoch nv (parentEpoch + (j : Int) + 1)) = true
    · rw [if_pos hhd] at hnone
      exact absurd hnone (by simp)
    · rw [if_neg hhd] at hnone
      match i with
      | 0 =>
        simp only [List.get]
        have h2 : e.Round = cb.MaxBeaconRoundForEpoch nv (parentEpoch + (j : Int) + 1) := by
          simpa [bne] using hhd
        simpa using h2
      | i + 1 =>
        have := ih (j + 1) hnone i (by simpa using Nat.lt_of_succ_lt_succ hi)
        simp only [List.get] at this ⊢
        rw [this]
        congr 2
        push_cast
        ring

/-- The sequential verification loop succeeds exactly when every entry is the
verified successor of the entry before it (starting from `prev`). -/
theorem verifyEntriesFrom_eq_none_iff (cb : RandomBeacon) :
    ∀ (l : List BeaconEntry) (j : Nat) (prev : BeaconEntry),
      verifyEntriesFrom cb j prev l = none ↔
        List.Chain (fun a b => cb.VerifyEntry b a.Data = none) prev l := by
  intro l
  induction l with
  | nil => intro j prev; simp [verifyEntriesFrom, List.Chain.nil]
  | cons e rest ih =>
    intro j prev
    rw [verifyEntriesFrom, List.chain_cons]
    cases hv : cb.VerifyEntry e prev.Data with
    | some w => simp [hv]
    | none => simp only [hv]; rw [ih (j + 1) e]; simp

theorem chainData_zero (prev : BeaconEntry) (l : List BeaconEntry) :
    chainData prev l 0 = prev.Data := rfl

theorem chainData_succ (prev e : BeaconEntry) (rest : List BeaconEntry) (i : Nat) :
    chainData prev (e :: rest) (i + 1) = chainData e rest i := by
  cases i <;> rfl

/-- A first verification failure at position `j` of the loop produces the
`entryInvalid` error carrying that position, round and data. -/
theorem verifyEntriesFrom_fail (cb : RandomBeacon) :
    ∀ (l : List BeaconEntry) (k : Nat) (prev : BeaconEntry) (j : Nat) (hj : j < l.length)
      (w : String),
      cb.VerifyEntry (l.get ⟨j, hj⟩) (chainData prev l j) = some w →
      (∀ i, i < j → ∀ (hi : i < l.length),
        cb.VerifyEntry (l.get ⟨i, hi⟩) (chainData prev l i) = none) →
      verifyEntriesFrom cb k prev l = some
        (BErr.entryInvalid (k + j) (l.get ⟨j, hj⟩).Round (l.get ⟨j, hj⟩).Data
          (l.get ⟨j, hj⟩).Data.length w) := by
  intro l
  induction l with
  | nil => intro k prev j hj; simp at hj
  | cons e rest ih =>
    intro k prev j hj w hfail hok
    match j with
    | 0 =>
      rw [chainData_zero] at hfail
      simp only [List.get] at hfail ⊢
      rw [verifyEntriesFrom, hfail]
      simp
    | j + 1 =>
      have h0 := hok 0 (Nat.succ_pos j) (by simp)
      rw [chainData_zero] at h0
      simp only [List.get] at h0
      rw [verifyEntriesFrom, h0]
      have hj' : j < rest.length := by simpa using Nat.lt_of_succ_lt_succ hj
      have hfail' : cb.VerifyEntry (rest.get ⟨j, hj'⟩) (chainData e rest j) = some w := by
        rw [← chainData_succ prev e rest j]
        exact hfail
      have hok' : ∀ i, i < j → ∀ (hi : i < rest.length),
          cb.VerifyEntry (rest.get ⟨i, hi⟩) (chainData e rest i) = none := by
        intro i hij hi
        rw [← chainData_succ prev e rest i]
        exact hok (i + 1) (Nat.succ_lt_succ hij) (by simpa using Nat.succ_lt_succ hi)
      rw [ih (k + 1) e j hj' w hfail' hok',
        show k + 1 + j = k + (j + 1) from by omega]
      rfl

/-- If every entry awaited strictly after `e` (descending from `c`) arrives
without cancellation or error, and the context is done while awaiting `e`,
the fetch loop fails with the timeout error naming the loop's target epoch. -/
theorem fetchLoop_timeout (cb : RandomBeacon) (ctx : Ctx) (nv : Nat) (epoch : Int) (e : Int)
    (hdone : ctx.doneAt e = true) :
    ∀ (n : Nat) (c : Int) (acc : List BeaconEntry),
      e ≤ c → c < e + n →
      (∀ e2, e < e2 → e2 ≤ c →
        ctx.doneAt e2 = false ∧ (cb.Entry (cb.MaxBeaconRoundForEpoch nv e2)).Err = none) →
      fetchLoop cb ctx nv epoch n c acc = Except.error (BErr.ctxTimeout epoch ctx.errMsg) := by
  intro n
  induction n with
  | zero => intro c acc h1 h2 _; omega
  | succ n ih =>
    intro c acc h1 h2 hgood
    simp only [fetchLoop]
    by_cases hce : c = e
    · subst hce; rw [if_pos hdone]
    · have hlt : e < c := by omega
      obtain ⟨hd, he⟩ := hgood c hlt le_rfl
      rw [if_neg (by simp [hd]), he]
      exact ih (c - 1) (acc ++ [(cb.Entry (cb.MaxBeaconRoundForEpoch nv c)).Entry])
        (by omega) (by omega) (fun e2 h1' h2' => hgood e2 h1' (by omega))

theorem chain_of_forall_mem (cb : RandomBeacon) (prev : BeaconEntry) (l : List BeaconEntry)
    (h : ∀ a pd, a ∈ l → cb.VerifyEntry a pd = none) :
    List.Chain (fun a b => cb.VerifyEntry b a.Data = none) prev l := by
  induction l generalizing prev with
  | nil => exact List.Chain.nil
  | cons e rest ih =>
    exact List.Chain.cons (h e prev.Data (by simp))
      (ih e (fun a pd ha => h a pd (by simp [ha])))

/-- Claim C4: no-op epoch.  Outside the fork case, if
`MaxBeaconRoundForEpoch nv epoch` equals `prev.Round` then
`BeaconEntriesForBlock` returns the empty sequence without error, and
`ValidateBlockValues` rejects every block at that epoch carrying a non-empty
entry list while accepting the block with an empty entry list. -/
theorem noop_epoch_empty_entries (bSchedule : Schedule) (ctx : Ctx) (nv : Nat)
    (h : BlockHeader) (parentEpoch : Int) (prev : BeaconEntry) (pb cb : RandomBeacon)
    (hpb : BeaconForEpoch bSchedule parentEpoch = some pb)
    (hcb : BeaconForEpoch bSchedule h.Height = some cb)
    (hfork : (pb.id != cb.id && cb.IsChained) = false)
    (hmax : cb.MaxBeaconRoundForEpoch nv h.Height = prev.Round) :
    BeaconEntriesForBlock ctx bSchedule nv h.Height parentEpoch prev = Except.ok [] ∧
    (h.BeaconEntries ≠ [] →
      ValidateBlockValues bSchedule nv h parentEpoch prev =
        Except.error (BErr.noopNonEmpty h.BeaconEntries.length)) ∧
    (h.BeaconEntries = [] →
      ValidateBlockValues bSchedule nv h parentEpoch prev = Except.ok ()) := by
  refine ⟨?_, ?_, ?_⟩
  · simp only [BeaconEntriesForBlock, hpb, hcb]
    rw [if_neg (by simp [hfork]), if_pos (by simp [hmax])]
  · intro hne
    simp only [ValidateBlockValues, hpb, hcb]
    rw [if_neg (by simp [hfork]), if_pos (by simp [hmax]),
      if_pos (by simpa [bne_iff_ne] using fun hlen => hne (List.eq_nil_of_length_eq_zero hlen))]
  · intro hnil
    simp only [ValidateBlockValues, hpb, hcb]
    rw [if_neg (by simp [hfork]), if_pos (by simp [hmax]), if_neg (by simp [hnil])]

/-- Claim C9: in the non-fork path the produced entries do not depend on
`prev` beyond the equality test against `maxRound` — any two `prev` entries
whose rounds both differ from `MaxBeaconRoundForEpoch nv epoch` yield
identical results; in particular the genesis adjustment that sets
`prev.Round` to `maxRound - 1` has no effect on the returned entries. -/
theorem producer_ignores_prev_round_value (bSchedule : Schedule) (ctx : Ctx) (nv : Nat)
    (epoch parentEpoch : Int) (prev1 prev2 : BeaconEntry) (pb cb : RandomBeacon)
    (hpb : BeaconForEpoch bSchedule parentEpoch = some pb)
    (hcb : BeaconForEpoch bSchedule epoch = some cb)
    (hfork : (pb.id != cb.id && cb.IsChained) = false)
    (h1 : prev1.Round ≠ cb.MaxBeaconRoundForEpoch nv epoch)
    (h2 : prev2.Round ≠ cb.MaxBeaconRoundForEpoch nv epoch) :
    BeaconEntriesForBlock ctx bSchedule nv epoch parentEpoch prev1 =
      BeaconEntriesForBlock ctx bSchedule nv epoch parentEpoch prev2 := by
  have e1 : (cb.MaxBeaconRoundForEpoch nv epoch == prev1.Round) = false := by
    simp only [beq_eq_false_iff_ne, ne_eq]
    exact fun heq => h1 heq.symm
  have e2 : (cb.MaxBeaconRoundForEpoch nv epoch == prev2.Round) = false := by
    simp only [beq_eq_false_iff_ne, ne_eq]
    exact fun heq => h2 heq.symm
  simp [BeaconEntriesForBlock, hpb, hcb, hfork, e1, e2]

/-- Claim C2: fork two-entry invariant.  When the schedule resolves the two
epochs to different beacons and the new beacon is chained,
`ValidateBlockValues` accepts only blocks carrying exactly 2 entries
(rejecting every other count with `forkCount`) and its result is decided
solely by verifying the second entry against the first entry's data; and
`BeaconEntriesForBlock` returns exactly the pair fetched for rounds
`round-1` (with uint64 wraparound, `usub1`) and `round`, where
`round = MaxBeaconRoundForEpoch nv epoch`, propagating the first fetch
error. -/
theorem fork_requires_two_entries (bSchedule : Schedule) (ctx : Ctx) (nv : Nat)
    (h : BlockHeader) (parentEpoch : Int) (prev : BeaconEntry) (pb cb : RandomBeacon)
    (hpb : BeaconForEpoch bSchedule parentEpoch = some pb)
    (hcb : BeaconForEpoch bSchedule h.Height = some cb)
    (hne : pb.id ≠ cb.id) (hch : cb.IsChained = true) :
    (h.BeaconEntries.length ≠ 2 →
      ValidateBlockValues bSchedule nv h parentEpoch prev =
        Except.error (BErr.forkCount h.BeaconEntries.length)) ∧
    (∀ e0 e1, h.BeaconEntries = [e0, e1] →
      ValidateBlockValues bSchedule nv h parentEpoch prev =
        (match cb.VerifyEntry e1 e0.Data with
         | some w => Except.error (BErr.forkInvalid e1 e0 w)
         | none => Except.ok ())) ∧
    (BeaconEntriesForBlock ctx bSchedule nv h.Height parentEpoch prev =
      forkFetch cb (usub1 (cb.MaxBeaconRoundForEpoch nv h.Height))
        (cb.MaxBeaconRoundForEpoch nv h.Height)) ∧
    (∀ w, (cb.Entry (usub1 (cb.MaxBeaconRoundForEpoch nv h.Height))).Err = some w →
      BeaconEntriesForBlock ctx bSchedule nv h.Height parentEpoch prev =
        Except.error (BErr.gettingEntry (usub1 (cb.MaxBeaconRoundForEpoch nv h.Height)) w)) ∧
    (∀ w, (cb.Entry (usub1 (cb.MaxBeaconRoundForEpoch nv h.Height))).Err = none →
      (cb.Entry (cb.MaxBeaconRoundForEpoch nv h.Height)).Err = some w →
      BeaconEntriesForBlock ctx bSchedule nv h.Height parentEpoch prev =
        Except.error (BErr.gettingEntry (cb.MaxBeaconRoundForEpoch nv h.Height) w)) ∧
    ((cb.Entry (usub1 (cb.MaxBeaconRoundForEpoch nv h.Height))).Err = none →
      (cb.Entry (cb.MaxBeaconRoundForEpoch nv h.Height)).Err = none →
      BeaconEntriesForBlock ctx bSchedule nv h.Height parentEpoch prev =
        Except.ok [(cb.Entry (usub1 (cb.MaxBeaconRoundForEpoch nv h.Height))).Entry,
          (cb.Entry (cb.MaxBeaconRoundForEpoch nv h.Height)).Entry]) := by
  have hforkT : (pb.id != cb.id && cb.IsChained) = true := by simp [hne, hch]
  refine ⟨?_, ?_, ?_, ?_, ?_, ?_⟩
  · intro hlen
    simp only [ValidateBlockValues, hpb, hcb]
    rw [if_pos (by simp [hforkT]), if_pos (by simpa [bne_iff_ne] using hlen)]
  · intro e0 e1 hl
    simp only [ValidateBlockValues, hpb, hcb]
    rw [if_pos (by simp [hforkT]), if_neg (by simp [hl])]
    simp [hl, List.getD]
  · simp only [BeaconEntriesForBlock, hpb, hcb]
    rw [if_pos (by simp [hforkT])]
  · intro w hw
    simp only [BeaconEntriesForBlock, hpb, hcb]
    rw [if_pos (by simp [hforkT])]
    simp only [forkFetch, hw]
  · intro w hw0 hw1
    simp only [BeaconEntriesForBlock, hpb, hcb]
    rw [if_pos (by simp [hforkT])]
    simp only [forkFetch, hw0, hw1]
  · intro hw0 hw1
    simp only [BeaconEntriesForBlock, hpb, hcb]
    rw [if_pos (by simp [hforkT])]
    simp only [forkFetch, hw0, hw1]

/-- Claim C10: in the fork branch the first fetched round is computed as
`round - 1` on a Go `uint64`, so when `MaxBeaconRoundForEpoch nv epoch = 0`
at a fork epoch the producer requests round `2 ^ 64 - 1` (wraparound) rather
than failing: the call is exactly `forkFetch cb (2 ^ 64 - 1) 0`, and when
both fetches succeed it returns them. -/
theorem fork_round_zero_wraparound (bSchedule : Schedule) (ctx : Ctx) (nv : Nat)
    (epoch parentEpoch : Int) (prev : BeaconEntry) (pb cb : RandomBeacon)
    (hpb : BeaconForEpoch bSchedule parentEpoch = some pb)
    (hcb : BeaconForEpoch bSchedule epoch = some cb)
    (hne : pb.id ≠ cb.id) (hch : cb.IsChained = true)
    (hmax0 : cb.MaxBeaconRoundForEpoch nv epoch = 0) :
    BeaconEntriesForBlock ctx bSchedule nv epoch parentEpoch prev =
      forkFetch cb (2 ^ 64 - 1) 0 ∧
    ((cb.Entry (2 ^ 64 - 1)).Err = none → (cb.Entry 0).Err = none →
      BeaconEntriesForBlock ctx bSchedule nv epoch parentEpoch prev =
        Except.ok [(cb.Entry (2 ^ 64 - 1)).Entry, (cb.Entry 0).Entry]) := by
  have hu : usub1 (cb.MaxBeaconRoundForEpoch nv epoch) = 2 ^ 64 - 1 := by
    rw [hmax0]; rfl
  constructor
  · simp only [BeaconEntriesForBlock, hpb, hcb]
    rw [if_pos (by simp [hne, hch]), hu, hmax0]
  · intro hw0 hw1
    simp only [BeaconEntriesForBlock, hpb, hcb]
    rw [if_pos (by simp [hne, hch]), hu, hmax0]
    simp only [forkFetch, hw0, hw1]

/-- Claim C3 (amended): genesis bypass.  For a chained beacon governing both
epochs, if `prevEntry.Round = 0`, `MaxBeaconRoundForEpoch nv blockEpoch ≠
prevEntry.Round` and the block's entry list is non-empty, then
`ValidateBlockValues` accepts regardless of the entries' rounds and data,
with no verification performed.  (As stated the claim is false: the empty
entry list is rejected — see `genesis_bypass_rejects_empty_list`.) -/
theorem genesis_bypass_accepts_nonempty (bSchedule : Schedule) (nv : Nat)
    (h : BlockHeader) (parentEpoch : Int) (prev : BeaconEntry) (cb : RandomBeacon)
    (hpb : BeaconForEpoch bSchedule parentEpoch = some cb)
    (hcb : BeaconForEpoch bSchedule h.Height = some cb)
    (hch : cb.IsChained = true) (h0 : prev.Round = 0)
    (hmax : cb.MaxBeaconRoundForEpoch nv h.Height ≠ prev.Round)
    (hne : h.BeaconEntries ≠ []) :
    ValidateBlockValues bSchedule nv h parentEpoch prev = Except.ok () := by
  simp only [ValidateBlockValues, hpb, hcb]
  rw [if_neg (by simp), if_neg (by simp [hmax]),
    if_neg (by simpa using fun hlen => hne (List.eq_nil_of_length_eq_zero hlen)),
    if_pos (by simp [hch, h0])]

/-- Characterization of a successful non-fork, non-noop producer run: the
result is the reversal of the descending fetch of epochs
`epoch, epoch-1, …, parentEpoch+1`. -/
theorem producer_ok_characterization (bSchedule : Schedule) (ctx : Ctx) (nv : Nat)
    (epoch parentEpoch : Int) (prev : BeaconEntry) (pb cb : RandomBeacon)
    (entries : List BeaconEntry)
    (hpb : BeaconForEpoch bSchedule parentEpoch = some pb)
    (hcb : BeaconForEpoch bSchedule epoch = some cb)
    (hfork : (pb.id != cb.id && cb.IsChained) = false)
    (hnoop : cb.MaxBeaconRoundForEpoch nv epoch ≠ prev.Round)
    (hprod : BeaconEntriesForBlock ctx bSchedule nv epoch parentEpoch prev = Except.ok entries) :
    entries = ((List.range (epoch - parentEpoch).toNat).map
      (fun k : Nat =>
        (cb.Entry (cb.MaxBeaconRoundForEpoch nv (epoch - (k : Int)))).Entry)).reverse := by
  have e0 : (cb.MaxBeaconRoundForEpoch nv epoch == prev.Round) = false := by
    simpa using hnoop
  simp only [BeaconEntriesForBlock, hpb, hcb, hfork, e0, Bool.false_eq_true, if_false] at hprod
  revert hprod
  cases hrun : fetchLoop cb ctx nv epoch (epoch - parentEpoch).toNat epoch [] with
  | error e => intro hprod; exact absurd hprod (by simp)
  | ok out =>
    intro hprod
    have hout := fetchLoop_ok cb ctx nv epoch (epoch - parentEpoch).toNat epoch [] out hrun
    simp only [List.nil_append] at hout
    have : entries = (reverse out.toArray).toList := by
      exact (Except.ok.injEq _ _).mp hprod.symm
    rw [this, reverse_toArray_toList, hout]

/-- Claim C1: validator/producer duality.  For every schedule that resolves
both `parentEpoch` and the block epoch to the same unchained beacon, every
network version, and every `epoch > parentEpoch`, if `BeaconEntriesForBlock`
returns a sequence of entries without error (each fetched entry carrying the
requested round) then `ValidateBlockValues` accepts a block at that epoch
carrying exactly that sequence, given the same schedule, network version,
parent epoch and `prev`, provided the beacon's `VerifyEntry` accepts those
entries. -/
theorem validate_accepts_produced_entries (bSchedule : Schedule) (ctx : Ctx) (nv : Nat)
    (epoch parentEpoch : Int) (prev : BeaconEntry) (cb : RandomBeacon)
    (entries : List BeaconEntry)
    (hpb : BeaconForEpoch bSchedule parentEpoch = some cb)
    (hcb : BeaconForEpoch bSchedule epoch = some cb)
    (hunchained : cb.IsChained = false)
    (hlt : parentEpoch < epoch)
    (hround : ∀ r, (cb.Entry r).Entry.Round = r)
    (hprod : BeaconEntriesForBlock ctx bSchedule nv epoch parentEpoch prev = Except.ok entries)
    (hverify : ∀ e pd, e ∈ entries → cb.VerifyEntry e pd = none) :
    ValidateBlockValues bSchedule nv ⟨epoch, entries⟩ parentEpoch prev = Except.ok () := by
  have hfork : (cb.id != cb.id && cb.IsChained) = false := by simp
  by_cases hnoop : cb.MaxBeaconRoundForEpoch nv epoch = prev.Round
  · -- no-op epoch: the produced list is empty and the validator accepts it
    have e0 : (cb.MaxBeaconRoundForEpoch nv epoch == prev.Round) = true := by
      simpa using hnoop
    have hnil : entries = [] := by
      simp only [BeaconEntriesForBlock, hpb, hcb, hfork, e0, Bool.false_eq_true, if_false,
        if_true] at hprod
      exact ((Except.ok.injEq _ _).mp hprod).symm
    simp only [ValidateBlockValues, hpb, hcb]
    rw [if_neg (by simp [hfork])]
    rw [if_pos (by simp [e0]), if_neg (by simp [hnil])]
  · -- at least one entry is due
    have hnInt : (((epoch - parentEpoch).toNat : Nat) : Int) = epoch - parentEpoch :=
      Int.toNat_of_nonneg (by omega)
    have hchar := producer_ok_characterization bSchedule ctx nv epoch parentEpoch prev cb cb
      entries hpb hcb hfork hnoop hprod
    have hlen : entries.length = (epoch - parentEpoch).toNat := by rw [hchar]; simp
    have hpos : 0 < (epoch - parentEpoch).toNat := by omega
    have hgetRoundQ : ∀ i, i < (epoch - parentEpoch).toNat →
        (entries[i]?).map BeaconEntry.Round =
          some (cb.MaxBeaconRoundForEpoch nv (parentEpoch + (i : Int) + 1)) := by
      intro i hi
      rw [hchar, List.getElem?_reverse (by simpa using hi)]
      simp only [List.length_map, List.length_range]
      rw [List.getElem?_map, List.getElem?_range (by omega)]
      simp only [Option.map_some']
      rw [hround]
      congr 2
      omega
    have hgetRound : ∀ i (hi : i < entries.length),
        (entries.get ⟨i, hi⟩).Round =
          cb.MaxBeaconRoundForEpoch nv (parentEpoch + (i : Int) + 1) := by
      intro i hi
      have h4 := hgetRoundQ i (by omega)
      rw [List.getElem?_eq_getElem hi] at h4
      simpa using h4
    simp only [ValidateBlockValues, hpb, hcb]
    rw [if_neg (by simp [hfork])]
    rw [if_neg (by simpa using hnoop), if_neg (by simp [hlen]; omega),
      if_neg (by simp [hunchained])]
    have hlast : (entries.getD (entries.length - 1) default).Round =
        cb.MaxBeaconRoundForEpoch nv epoch := by
      rw [List.getD_eq_getElem?_getD, List.getElem?_eq_getElem (by omega), Option.getD_some]
      have := hgetRound (entries.length - 1) (by omega)
      rw [List.get_eq_getElem] at this
      rw [this]
      congr 1
      omega
    rw [if_neg (by simp only [bne_iff_ne, ne_eq, not_not]; rw [hlast])]
    have hrounds0 : checkRoundsFrom cb nv parentEpoch 0 entries = none := by
      apply checkRoundsFrom_eq_none
      intro i hi
      rw [hgetRound i hi]
      norm_num
    rw [hunchained]
    simp only [Bool.not_false, if_true, hrounds0]
    have hchain := chain_of_forall_mem cb prev entries hverify
    rw [(verifyEntriesFrom_eq_none_iff cb entries 0 prev).mpr hchain]

/-- Unfolding of the validator on the non-fork, non-noop, non-empty,
non-bypass path: what remains is the final-round check, the (unchained-only)
contiguity check and the sequential verification loop. -/
theorem validate_unfold_core (bSchedule : Schedule) (nv : Nat) (h : BlockHeader)
    (parentEpoch : Int) (prev : BeaconEntry) (pb cb : RandomBeacon)
    (hpb : BeaconForEpoch bSchedule parentEpoch = some pb)
    (hcb : BeaconForEpoch bSchedule h.Height = some cb)
    (hfork : (pb.id != cb.id && cb.IsChained) = false)
    (hnoop : cb.MaxBeaconRoundForEpoch nv h.Height ≠ prev.Round)
    (hne : h.BeaconEntries ≠ [])
    (hbypass : (cb.IsChained && prev.Round == 0) = false) :
    ValidateBlockValues bSchedule nv h parentEpoch prev =
      (if (h.BeaconEntries.getD (h.BeaconEntries.length - 1) default).Round !=
          cb.MaxBeaconRoundForEpoch nv h.Height then
        Except.error (BErr.lastRound (cb.MaxBeaconRoundForEpoch nv h.Height)
          (h.BeaconEntries.getD (h.BeaconEntries.length - 1) default).Round)
      else
        match (if !cb.IsChained then checkRoundsFrom cb nv parentEpoch 0 h.BeaconEntries
            else none) with
        | some e => Except.error e
        | none =>
          match verifyEntriesFrom cb 0 prev h.BeaconEntries with
          | some e => Except.error e
          | none => Except.ok ()) := by
  simp only [ValidateBlockValues, hpb, hcb]
  rw [if_neg (by simp [hfork]), if_neg (by simpa using hnoop),
    if_neg (by simpa using fun hl => hne (List.eq_nil_of_length_eq_zero hl)),
    if_neg (by simp [hbypass])]

/-- Claim C5: unchained round-contiguity check.  On the non-fork, non-noop,
non-empty, non-bypass path: a wrong final round is rejected with `lastRound`;
for an unchained beacon acceptance forces every entry at position `i` to
carry round `MaxBeaconRoundForEpoch nv (parentEpoch + i + 1)`; when those
per-position rounds and the final round agree the validator reduces to the
sequential verification loop; and for a chained beacon the per-position check
is skipped (the validator reduces to the verification loop with no
per-position hypothesis). -/
theorem unchained_round_contiguity (bSchedule : Schedule) (nv : Nat) (h : BlockHeader)
    (parentEpoch : Int) (prev : BeaconEntry) (pb cb : RandomBeacon)
    (hpb : BeaconForEpoch bSchedule parentEpoch = some pb)
    (hcb : BeaconForEpoch bSchedule h.Height = some cb)
    (hfork : (pb.id != cb.id && cb.IsChained) = false)
    (hnoop : cb.MaxBeaconRoundForEpoch nv h.Height ≠ prev.Round)
    (hne : h.BeaconEntries ≠ [])
    (hbypass : (cb.IsChained && prev.Round == 0) = false) :
    ((h.BeaconEntries.getD (h.BeaconEntries.length - 1) default).Round ≠
        cb.MaxBeaconRoundForEpoch nv h.Height →
      ValidateBlockValues bSchedule nv h parentEpoch prev =
        Except.error (BErr.lastRound (cb.MaxBeaconRoundForEpoch nv h.Height)
          (h.BeaconEntries.getD (h.BeaconEntries.length - 1) default).Round)) ∧
    (cb.IsChained = false →
      ValidateBlockValues bSchedule nv h parentEpoch prev = Except.ok () →
      ∀ i (hi : i < h.BeaconEntries.length),
        (h.BeaconEntries.get ⟨i, hi⟩).Round =
          cb.MaxBeaconRoundForEpoch nv (parentEpoch + (i : Int) + 1)) ∧
    (cb.IsChained = false →
      (h.BeaconEntries.getD (h.BeaconEntries.length - 1) default).Round =
        cb.MaxBeaconRoundForEpoch nv h.Height →
      (∀ i (hi : i < h.BeaconEntries.length),
        (h.BeaconEntries.get ⟨i, hi⟩).Round =
          cb.MaxBeaconRoundForEpoch nv (parentEpoch + (i : Int) + 1)) →
      ValidateBlockValues bSchedule nv h parentEpoch prev =
        (match verifyEntriesFrom cb 0 prev h.BeaconEntries with
         | some e => Except.error e
         | none => Except.ok ())) ∧
    (cb.IsChained = true →
      (h.BeaconEntries.getD (h.BeaconEntries.length - 1) default).Round =
        cb.MaxBeaconRoundForEpoch nv h.Height →
      ValidateBlockValues bSchedule nv h parentEpoch prev =
        (match verifyEntriesFrom cb 0 prev h.BeaconEntries with
         | some e => Except.error e
         | none => Except.ok ())) := by
  have hcore := validate_unfold_core bSchedule nv h parentEpoch prev pb cb hpb hcb hfork
    hnoop hne hbypass
  refine ⟨?_, ?_, ?_, ?_⟩
  · intro hlastne
    rw [hcore, if_pos (by simpa using hlastne)]
  · intro hchf hok i hi
    rw [hcore] at hok
    by_cases hlst : ((h.BeaconEntries.getD (h.BeaconEntries.length - 1) default).Round !=
        cb.MaxBeaconRoundForEpoch nv h.Height) = true
    · rw [if_pos hlst] at hok
      exact absurd hok (by simp)
    · rw [if_neg hlst, hchf] at hok
      simp only [Bool.not_false, if_true] at hok
      revert hok
      cases hcr : checkRoundsFrom cb nv parentEpoch 0 h.BeaconEntries with
      | some e => intro hok; exact absurd hok (by simp)
      | none =>
        intro _
        have := checkRoundsFrom_none_imp cb nv parentEpoch h.BeaconEntries 0 hcr i hi
        simpa using this
  · intro hchf hlasteq hpos
    rw [hcore, if_neg (by simp only [bne_iff_ne, ne_eq, not_not]; exact hlasteq), hchf]
    simp only [Bool.not_false, if_true]
    rw [checkRoundsFrom_eq_none cb nv parentEpoch h.BeaconEntries 0
      (by intro i hi; rw [hpos i hi]; norm_num)]
  · intro hchT hlasteq
    rw [hcore, if_neg (by simp only [bne_iff_ne, ne_eq, not_not]; exact hlasteq), hchT]
    simp only [Bool.not_true, Bool.false_eq_true, if_false]

/-- Claim C6: sequential chain verification.  On the non-fork, non-bypass
path with the shape checks passing, the block is accepted iff every entry
verifies against the previous entry's data (starting from `prevEntry`, i.e.
the chain predicate holds), and the first `VerifyEntry` failure — position
`j`, all earlier positions verifying — rejects the block with `entryInvalid`
carrying the failing entry's position, round and data; the error is
determined without any constraint on later entries. -/
theorem sequential_chain_verification (bSchedule : Schedule) (nv : Nat) (h : BlockHeader)
    (parentEpoch : Int) (prev : BeaconEntry) (pb cb : RandomBeacon)
    (hpb : BeaconForEpoch bSchedule parentEpoch = some pb)
    (hcb : BeaconForEpoch bSchedule h.Height = some cb)
    (hfork : (pb.id != cb.id && cb.IsChained) = false)
    (hnoop : cb.MaxBeaconRoundForEpoch nv h.Height ≠ prev.Round)
    (hne : h.BeaconEntries ≠ [])
    (hbypass : (cb.IsChained && prev.Round == 0) = false)
    (hlast : (h.BeaconEntries.getD (h.BeaconEntries.length - 1) default).Round =
      cb.MaxBeaconRoundForEpoch nv h.Height)
    (hrounds : cb.IsChained = true ∨
      checkRoundsFrom cb nv parentEpoch 0 h.BeaconEntries = none) :
    (ValidateBlockValues bSchedule nv h parentEpoch prev = Except.ok () ↔
      List.Chain (fun a b => cb.VerifyEntry b a.Data = none) prev h.BeaconEntries) ∧
    (∀ j (hj : j < h.BeaconEntries.length) (w : String),
      cb.VerifyEntry (h.BeaconEntries.get ⟨j, hj⟩) (chainData prev h.BeaconEntries j) =
        some w →
      (∀ i, i < j → ∀ (hi : i < h.BeaconEntries.length),
        cb.VerifyEntry (h.BeaconEntries.get ⟨i, hi⟩) (chainData prev h.BeaconEntries i) =
          none) →
      ValidateBlockValues bSchedule nv h parentEpoch prev =
        Except.error (BErr.entryInvalid j (h.BeaconEntries.get ⟨j, hj⟩).Round
          (h.BeaconEntries.get ⟨j, hj⟩).Data
          (h.BeaconEntries.get ⟨j, hj⟩).Data.length w)) := by
  have hcore := validate_unfold_core bSchedule nv h parentEpoch prev pb cb hpb hcb hfork
    hnoop hne hbypass
  have hre : (if !cb.IsChained then checkRoundsFrom cb nv parentEpoch 0 h.BeaconEntries
      else none) = none := by
    cases hrounds with
    | inl hc => simp [hc]
    | inr hc =>
      by_cases hch : cb.IsChained
      · simp [hch]
      · simp only [Bool.not_eq_true] at hch
        simp [hch, hc]
  rw [hcore, if_neg (by simp only [bne_iff_ne, ne_eq, not_not]; exact hlast), hre]
  constructor
  · cases hv : verifyEntriesFrom cb 0 prev h.BeaconEntries with
    | some e =>
      simp only
      constructor
      · intro hcontra; exact absurd hcontra (by simp)
      · intro hchain
        rw [(verifyEntriesFrom_eq_none_iff cb h.BeaconEntries 0 prev).mpr hchain] at hv
        exact absurd hv (by simp)
    | none =>
      simp only
      constructor
      · intro _; exact (verifyEntriesFrom_eq_none_iff cb h.BeaconEntries 0 prev).mp hv
      · intro _; trivial
  · intro j hj w hfail hok
    rw [verifyEntriesFrom_fail cb h.BeaconEntries 0 prev j hj w hfail hok]
    simp

/-- Positional facts about a successful non-fork, non-noop producer run when
fetched entries carry the requested rounds: the result has one entry per
epoch strictly between `parentEpoch` and `epoch`, and the entry at position
`i` carries the round for epoch `parentEpoch + i + 1`. -/
theorem producer_ok_rounds (bSchedule : Schedule) (ctx : Ctx) (nv : Nat)
    (epoch parentEpoch : Int) (prev : BeaconEntry) (pb cb : RandomBeacon)
    (entries : List BeaconEntry)
    (hpb : BeaconForEpoch bSchedule parentEpoch = some pb)
    (hcb : BeaconForEpoch bSchedule epoch = some cb)
    (hfork : (pb.id != cb.id && cb.IsChained) = false)
    (hnoop : cb.MaxBeaconRoundForEpoch nv epoch ≠ prev.Round)
    (hround : ∀ r, (cb.Entry r).Entry.Round = r)
    (hprod : BeaconEntriesForBlock ctx bSchedule nv epoch parentEpoch prev =
      Except.ok entries) :
    entries.length = (epoch - parentEpoch).toNat ∧
    ∀ i (hi : i < entries.length),
      (entries.get ⟨i, hi⟩).Round =
        cb.MaxBeaconRoundForEpoch nv (parentEpoch + (i : Int) + 1) := by
  have hchar := producer_ok_characterization bSchedule ctx nv epoch parentEpoch prev pb cb
    entries hpb hcb hfork hnoop hprod
  have hlen : entries.length = (epoch - parentEpoch).toNat := by rw [hchar]; simp
  refine ⟨hlen, ?_⟩
  have hgetRoundQ : ∀ i, i < (epoch - parentEpoch).toNat →
      (entries[i]?).map BeaconEntry.Round =
        some (cb.MaxBeaconRoundForEpoch nv (parentEpoch + (i : Int) + 1)) := by
    intro i hi
    rw [hchar, List.getElem?_reverse (by simpa using hi)]
    simp only [List.length_map, List.length_range]
    rw [List.getElem?_map, List.getElem?_range (by omega)]
    simp only [Option.map_some']
    rw [hround]
    congr 2
    omega
  intro i hi
  have h4 := hgetRoundQ i (by omega)
  rw [List.getElem?_eq_getElem hi] at h4
  simpa using h4

/-- Claim C7 (amended): reversal correctness.  For every successful non-fork
call of `BeaconEntriesForBlock` whose fetched entries carry the requested
rounds, if `MaxBeaconRoundForEpoch nv` is strictly increasing on the epochs
in `(parentEpoch, epoch]` then the returned sequence is strictly increasing
in round number (descending fetch + in-place reversal yields ascending
order).  (As stated — without the strict-monotonicity hypothesis — the claim
is false: see `produced_rounds_not_strictly_increasing`.) -/
theorem produced_rounds_strictly_increasing (bSchedule : Schedule) (ctx : Ctx) (nv : Nat)
    (epoch parentEpoch : Int) (prev : BeaconEntry) (pb cb : RandomBeacon)
    (entries : List BeaconEntry)
    (hpb : BeaconForEpoch bSchedule parentEpoch = some pb)
    (hcb : BeaconForEpoch bSchedule epoch = some cb)
    (hfork : (pb.id != cb.id && cb.IsChained) = false)
    (hround : ∀ r, (cb.Entry r).Entry.Round = r)
    (hmono : ∀ e1 e2 : Int, parentEpoch < e1 → e1 < e2 → e2 ≤ epoch →
      cb.MaxBeaconRoundForEpoch nv e1 < cb.MaxBeaconRoundForEpoch nv e2)
    (hprod : BeaconEntriesForBlock ctx bSchedule nv epoch parentEpoch prev =
      Except.ok entries) :
    List.Pairwise (fun a b => a.Round < b.Round) entries := by
  by_cases hnoop : cb.MaxBeaconRoundForEpoch nv epoch = prev.Round
  · have e0 : (cb.MaxBeaconRoundForEpoch nv epoch == prev.Round) = true := by
      simpa using hnoop
    have hnil : entries = [] := by
      simp only [BeaconEntriesForBlock, hpb, hcb, hfork, e0, Bool.false_eq_true, if_false,
        if_true] at hprod
      exact ((Except.ok.injEq _ _).mp hprod).symm
    rw [hnil]
    exact List.Pairwise.nil
  · obtain ⟨hlen, hpos⟩ := producer_ok_rounds bSchedule ctx nv epoch parentEpoch prev pb cb
      entries hpb hcb hfork hnoop hround hprod
    rw [List.pairwise_iff_getElem]
    intro i j hi hj hij
    show (entries.get ⟨i, hi⟩).Round < (entries.get ⟨j, hj⟩).Round
    rw [hpos i hi, hpos j hj]
    apply hmono
    · omega
    · omega
    · omega

/-- Claim C8 (amended): cancellation error context.  Whenever the non-fork
fetch loop is cancelled while awaiting the entry for some epoch `e` with
`parentEpoch < e ≤ epoch` (all later epochs having been fetched
successfully), the call fails with a timeout error that carries the call's
target epoch `epoch` and the underlying cancellation cause.  (The claim as
stated — that the error identifies `e`, the epoch being awaited — is false:
the source formats the loop-invariant `epoch`, not `currEpoch`; see
`timeout_error_names_target_epoch`.) -/
theorem timeout_error_carries_target_epoch (bSchedule : Schedule) (ctx : Ctx) (nv : Nat)
    (epoch parentEpoch : Int) (prev : BeaconEntry) (pb cb : RandomBeacon) (e : Int)
    (hpb : BeaconForEpoch bSchedule parentEpoch = some pb)
    (hcb : BeaconForEpoch bSchedule epoch = some cb)
    (hfork : (pb.id != cb.id && cb.IsChained) = false)
    (hnoop : cb.MaxBeaconRoundForEpoch nv epoch ≠ prev.Round)
    (he1 : parentEpoch < e) (he2 : e ≤ epoch)
    (hdone : ctx.doneAt e = true)
    (hafter : ∀ e2, e < e2 → e2 ≤ epoch →
      ctx.doneAt e2 = false ∧ (cb.Entry (cb.MaxBeaconRoundForEpoch nv e2)).Err = none) :
    BeaconEntriesForBlock ctx bSchedule nv epoch parentEpoch prev =
      Except.error (BErr.ctxTimeout epoch ctx.errMsg) := by
  have hnum : (cb.MaxBeaconRoundForEpoch nv epoch == prev.Round) = false := by
    simpa using hnoop
  simp only [BeaconEntriesForBlock, hpb, hcb, hfork, hnum, Bool.false_eq_true, if_false]
  rw [fetchLoop_timeout cb ctx nv epoch e hdone ((epoch - parentEpoch).toNat) epoch []
    he2 (by omega) hafter]

/-! Concrete instances used by the witnesses and counterexamples below. -/

/-- Unchained test beacon with one round per epoch: `MaxBeaconRoundForEpoch`
is the epoch itself, every fetch succeeds with the requested round, every
verification succeeds. -/
def epochBeacon : RandomBeacon :=
  { id := 0
    Entry := fun r => { Entry := { Round := r, Data := [r] }, Err := none }
    VerifyEntry := fun _ _ => none
    MaxBeaconRoundForEpoch := fun _ e => e.toNat
    IsChained := false }

def epochSchedule : Schedule := [{ Start := 0, Beacon := epochBeacon }]

/-- Chained test beacon whose verifier rejects everything (so acceptance of a
block exhibits that no verification ran). -/
def oldChainedBeacon : RandomBeacon :=
  { id := 0
    Entry := fun r => { Entry := { Round := r, Data := [r] }, Err := none }
    VerifyEntry := fun _ _ => some "invalid"
    MaxBeaconRoundForEpoch := fun _ _ => 1
    IsChained := true }

/-- Chained beacon on the new side of a fork whose round is 0 at every epoch
and whose verifier accepts exactly round-0 entries. -/
def newChainedBeacon : RandomBeacon :=
  { id := 1
    Entry := fun r => { Entry := { Round := r, Data := [r] }, Err := none }
    VerifyEntry := fun e _ => if e.Round == 0 then none else some "bad round"
    MaxBeaconRoundForEpoch := fun _ _ => 0
    IsChained := true }

def chainedSchedule : Schedule := [{ Start := 0, Beacon := oldChainedBeacon }]

def forkSchedule : Schedule :=
  [{ Start := 100, Beacon := newChainedBeacon }, { Start := 0, Beacon := oldChainedBeacon }]

/-- Unchained beacon whose round is the constant 5 at every epoch
(`MaxBeaconRoundForEpoch` is only required to be non-decreasing). -/
def constBeacon : RandomBeacon :=
  { id := 0
    Entry := fun r => { Entry := { Round := r, Data := [] }, Err := none }
    VerifyEntry := fun _ _ => none
    MaxBeaconRoundForEpoch := fun _ _ => 5
    IsChained := false }

def constSchedule : Schedule := [{ Start := 0, Beacon := constBeacon }]

/-- Unchained beacon whose verifier accepts an entry exactly when its data is
the singleton of its round. -/
def pickyBeacon : RandomBeacon :=
  { id := 0
    Entry := fun r => { Entry := { Round := r, Data := [r] }, Err := none }
    VerifyEntry := fun e _ => if e.Data == [e.Round] then none else some "mismatch"
    MaxBeaconRoundForEpoch := fun _ e => e.toNat
    IsChained := false }

def pickySchedule : Schedule := [{ Start := 0, Beacon := pickyBeacon }]

/-- A context that is never cancelled. -/
def idleCtx : Ctx := { doneAt := fun _ => false, errMsg := "" }

/-- A context whose cancellation wins the select while awaiting epoch 4. -/
def cancelCtx : Ctx := { doneAt := fun e => e == 4, errMsg := "context canceled" }

/-- Witness for C1 at the spec's concrete scenario. -/
theorem validate_accepts_produced_entries_witness :
    ValidateBlockValues epochSchedule 0
      ⟨13, [⟨11, [11]⟩, ⟨12, [12]⟩, ⟨13, [13]⟩]⟩ 10 ⟨10, []⟩ = Except.ok () :=
  validate_accepts_produced_entries epochSchedule idleCtx 0 13 10 ⟨10, []⟩ epochBeacon
    [⟨11, [11]⟩, ⟨12, [12]⟩, ⟨13, [13]⟩] rfl rfl rfl (by decide) (fun _ => rfl) rfl
    (fun _ _ _ => rfl)

/-- Witness for C2: fork block with 1 entry rejected, fork block with the
2 produced entries accepted, and the produced fork pair. -/
theorem fork_requires_two_entries_witness :
    ValidateBlockValues forkSchedule 0 ⟨100, [⟨0, [0]⟩]⟩ 99 ⟨1, [1]⟩ =
      Except.error (BErr.forkCount 1) ∧
    ValidateBlockValues forkSchedule 0 ⟨100, [⟨7, [7]⟩, ⟨0, [0]⟩]⟩ 99 ⟨1, [1]⟩ =
      Except.ok () ∧
    BeaconEntriesForBlock idleCtx forkSchedule 0 100 99 ⟨1, [1]⟩ =
      Except.ok [⟨2 ^ 64 - 1, [2 ^ 64 - 1]⟩, ⟨0, [0]⟩] := by
  have h1 := fork_requires_two_entries forkSchedule idleCtx 0 ⟨100, [⟨0, [0]⟩]⟩ 99 ⟨1, [1]⟩
    oldChainedBeacon newChainedBeacon rfl rfl (by decide) rfl
  have h2 := fork_requires_two_entries forkSchedule idleCtx 0 ⟨100, [⟨7, [7]⟩, ⟨0, [0]⟩]⟩ 99
    ⟨1, [1]⟩ oldChainedBeacon newChainedBeacon rfl rfl (by decide) rfl
  exact ⟨(h1.1 (by decide)).trans rfl, (h2.2.1 ⟨7, [7]⟩ ⟨0, [0]⟩ rfl).trans rfl,
    (h1.2.2.2.2.2 rfl rfl).trans rfl⟩

/-- Counterexample to C3 as stated: chained beacon, `prevEntry.round = 0`,
empty entry list — the validator rejects although the claim says it accepts
any entry list. -/
theorem genesis_bypass_rejects_empty_list :
    ValidateBlockValues chainedSchedule 0 ⟨5, []⟩ 4 ⟨0, []⟩ =
      Except.error BErr.noEntries ∧
    ValidateBlockValues chainedSchedule 0 ⟨5, []⟩ 4 ⟨0, []⟩ ≠ Except.ok () :=
  ⟨rfl, by decide⟩

/-- Witness for C3 (amended): the bypass accepts a nonsense entry even though
the beacon's verifier rejects everything. -/
theorem genesis_bypass_accepts_nonempty_witness :
    ValidateBlockValues chainedSchedule 0 ⟨5, [⟨9, [7]⟩]⟩ 4 ⟨0, []⟩ = Except.ok () :=
  genesis_bypass_accepts_nonempty chainedSchedule 0 ⟨5, [⟨9, [7]⟩]⟩ 4 ⟨0, []⟩
    oldChainedBeacon rfl rfl rfl rfl (by decide) (by decide)

/-- Witness for C4. -/
theorem noop_epoch_empty_entries_witness :
    BeaconEntriesForBlock idleCtx epochSchedule 0 7 6 ⟨7, []⟩ = Except.ok [] ∧
    ValidateBlockValues epochSchedule 0 ⟨7, [⟨7, [7]⟩]⟩ 6 ⟨7, []⟩ =
      Except.error (BErr.noopNonEmpty 1) := by
  have h := noop_epoch_empty_entries epochSchedule idleCtx 0 ⟨7, [⟨7, [7]⟩]⟩ 6 ⟨7, []⟩
    epochBeacon epochBeacon rfl rfl (by decide) (by decide)
  exact ⟨h.1, (h.2.1 (by decide)).trans rfl⟩

/-- Witness for C5: wrong final round rejected with the `lastRound` error. -/
theorem unchained_round_contiguity_witness :
    ValidateBlockValues epochSchedule 0 ⟨13, [⟨11, [11]⟩, ⟨12, [12]⟩]⟩ 10 ⟨10, []⟩ =
      Except.error (BErr.lastRound 13 12) := by
  have h := unchained_round_contiguity epochSchedule 0 ⟨13, [⟨11, [11]⟩, ⟨12, [12]⟩]⟩ 10
    ⟨10, []⟩ epochBeacon epochBeacon rfl rfl (by decide) (by decide) (by decide) (by decide)
  exact (h.1 (by decide)).trans rfl

/-- Witness for C6: a failing second entry yields `entryInvalid` carrying its
position, round and data. -/
theorem sequential_chain_verification_witness :
    ValidateBlockValues pickySchedule 0 ⟨12, [⟨11, [11]⟩, ⟨12, [99]⟩]⟩ 10 ⟨10, [10]⟩ =
      Except.error (BErr.entryInvalid 1 12 [99] 1 "mismatch") := by
  have h := sequential_chain_verification pickySchedule 0 ⟨12, [⟨11, [11]⟩, ⟨12, [99]⟩]⟩ 10
    ⟨10, [10]⟩ pickyBeacon pickyBeacon rfl rfl (by decide) (by decide) (by decide)
    (by decide) (by decide) (Or.inr rfl)
  refine (h.2 1 (by decide) "mismatch" rfl ?_).trans rfl
  intro i hi hilen
  match i, hi with
  | 0, _ => rfl

/-- Counterexample to C7 as stated: a constant-round beacon produces a
successful non-fork sequence whose rounds are not strictly increasing. -/
theorem produced_rounds_not_strictly_increasing :
    BeaconEntriesForBlock idleCtx constSchedule 0 2 0 ⟨3, []⟩ =
      Except.ok [⟨5, []⟩, ⟨5, []⟩] ∧
    ¬ List.Pairwise (fun a b : BeaconEntry => a.Round < b.Round) [⟨5, []⟩, ⟨5, []⟩] :=
  ⟨rfl, by decide⟩

/-- Witness for C7 (amended). -/
theorem produced_rounds_strictly_increasing_witness :
    List.Pairwise (fun a b : BeaconEntry => a.Round < b.Round)
      [⟨11, [11]⟩, ⟨12, [12]⟩, ⟨13, [13]⟩] :=
  produced_rounds_strictly_increasing epochSchedule idleCtx 0 13 10 ⟨10, []⟩
    epochBeacon epochBeacon [⟨11, [11]⟩, ⟨12, [12]⟩, ⟨13, [13]⟩] rfl rfl (by decide)
    (fun _ => rfl) (fun e1 e2 h1 h2 h3 => by show e1.toNat < e2.toNat; omega) rfl

/-- Counterexample to C8 as stated: cancellation strikes while awaiting epoch
4 (the fetch for epoch 5 had already succeeded), yet the error names epoch 5,
the call's target epoch, not the awaited epoch 4. -/
theorem timeout_error_names_target_epoch :
    cancelCtx.doneAt 4 = true ∧ cancelCtx.doneAt 5 = false ∧
    BeaconEntriesForBlock cancelCtx epochSchedule 0 5 3 ⟨3, []⟩ =
      Except.error (BErr.ctxTimeout 5 "context canceled") ∧
    (5 : Int) ≠ 4 :=
  ⟨rfl, rfl, rfl, by decide⟩

/-- Witness for C8 (amended). -/
theorem timeout_error_carries_target_epoch_witness :
    BeaconEntriesForBlock cancelCtx epochSchedule 0 5 3 ⟨3, []⟩ =
      Except.error (BErr.ctxTimeout 5 "context canceled") := by
  have h := timeout_error_carries_target_epoch epochSchedule cancelCtx 0 5 3 ⟨3, []⟩
    epochBeacon epochBeacon 4 rfl rfl (by decide) (by decide) (by decide) (by decide) rfl
    (fun e2 h1 h2 => ⟨by simp only [cancelCtx, beq_eq_false_iff_ne, ne_eq]; omega, rfl⟩)
  exact h.trans rfl

/-- Witness for C9: a round-0 `prev` (which triggers the genesis adjustment)
and a different-round `prev` produce identical results. -/
theorem producer_ignores_prev_round_value_witness :
    BeaconEntriesForBlock idleCtx epochSchedule 0 6 4 ⟨0, []⟩ =
      BeaconEntriesForBlock idleCtx epochSchedule 0 6 4 ⟨2, [7]⟩ :=
  producer_ignores_prev_round_value epochSchedule idleCtx 0 6 4 ⟨0, []⟩ ⟨2, [7]⟩
    epochBeacon epochBeacon rfl rfl (by decide) (by decide) (by decide)

/-- Witness for C10: at a fork epoch with round 0 the producer requests round
`2 ^ 64 - 1`. -/
theorem fork_round_zero_wraparound_witness :
    BeaconEntriesForBlock idleCtx forkSchedule 0 100 99 ⟨7, []⟩ =
      forkFetch newChainedBeacon (2 ^ 64 - 1) 0 ∧
    BeaconEntriesForBlock idleCtx forkSchedule 0 100 99 ⟨7, []⟩ =
      Except.ok [⟨2 ^ 64 - 1, [2 ^ 64 - 1]⟩, ⟨0, [0]⟩] := by
  have h := fork_round_zero_wraparound forkSchedule idleCtx 0 100 99 ⟨7, []⟩
    oldChainedBeacon newChainedBeacon rfl rfl (by decide) rfl rfl
  exact ⟨h.1, (h.2 rfl rfl).trans rfl⟩
